import Mathlib

/-!
Shallow embedding of the Kotlin test-discovery subsystem
(`KotlinTestDiscovery` in `testDiscovery.ts`): file classification,
declaration scanning (regex + brace counting), the test-tree store,
and the run scheduler.  Strings are modelled as `List Char`; the
JS string operations used by the source (`includes`, `endsWith`,
`startsWith`, `split`, `substring`, `indexOf`) are modelled directly.
-/

/-- Opening brace character (written via escape throughout). -/
def lbrace : Char := '\x7b'

/-- Closing brace character (written via escape throughout). -/
def rbrace : Char := '\x7d'

/-- JS `String.prototype.includes(sub)`: substring containment, checked by
trying `sub` as a prefix at every suffix of `s`. -/
def strContains : List Char → List Char → Bool
  | s, sub =>
    sub.isPrefixOf s ||
      match s with
      | [] => false
      | _ :: rest => strContains rest sub

/-- JS `String.prototype.endsWith(suf)`. -/
def strEndsWith (s suf : List Char) : Bool := suf.reverse.isPrefixOf s.reverse

/-- JS `String.prototype.startsWith(pre)`. -/
def strStartsWith (s p : List Char) : Bool := p.isPrefixOf s

/-- File-name condition of `findKotlinTestFiles` (line 92): the else-if
guard `file.name.endsWith('.kt') || file.name.endsWith('.kts') &&
(file.name.includes('Test') || file.name.includes('Tests'))`, with JS
operator precedence (`&&` binds tighter than `||`). -/
def testFileNameCheck (name : List Char) : Bool :=
  strEndsWith name ".kt".toList ||
    (strEndsWith name ".kts".toList &&
      (strContains name "Test".toList || strContains name "Tests".toList))

/-- Content condition of `findKotlinTestFiles` (line 97): the content must
contain `@Test` or one of the recognized import prefixes. -/
def testFileContentCheck (content : List Char) : Bool :=
  strContains content "@Test".toList ||
    strContains content "import org.junit".toList ||
    strContains content "import kotlin.test".toList ||
    strContains content "import io.kotest".toList

/-- Combined File Classifier decision of `findKotlinTestFiles` for a plain
file: the file is kept as a candidate test file iff the name guard of
line 92 and the content guard of line 97 both hold. -/
def isTestFileCandidate (name content : List Char) : Bool :=
  testFileNameCheck name && testFileContentCheck content

/-- Directory-recursion guard of `findKotlinTestFiles` (line 88): the walk
descends into a subdirectory iff
`file.name.startsWith(".") && !file.name.startsWith("build")`. -/
def descendsInto (name : List Char) : Bool :=
  strStartsWith name ".".toList && !(strStartsWith name "build".toList)

/-- JS `id.split("#")` specialised to the separator used at line 238. -/
def splitOnHash : List Char → List (List Char)
  | [] => [[]]
  | c :: rest =>
    if c = '#' then [] :: splitOnHash rest
    else
      match splitOnHash rest with
      | [] => [[c]]
      | g :: gs => (c :: g) :: gs

/-- Selector recovery of `runHandler` line 238:
`const [testClass, testMethod] = test.id.split("#")` — array
destructuring takes the first component as `testClass` and the second,
when present, as `testMethod`. -/
def splitSelector (id : List Char) : List Char × Option (List Char) :=
  match splitOnHash id with
  | [] => ([], none)
  | [c] => (c, none)
  | c :: m :: _ => (c, some m)

/-- Brace-counting loop of `resolveTestsInFile` (lines 144-148): starting
with brace count `count` at the head of `l`, returns how many characters
the loop consumes before the count returns to zero or the content ends. -/
def scanBody : List Char → Nat → Nat
  | _, 0 => 0
  | [], _ + 1 => 0
  | c :: rest, k + 1 =>
    1 + scanBody rest (if c = lbrace then k + 2 else if c = rbrace then k else k + 1)

/-- Running brace count after consuming a list of characters, starting
from `count`; used to state when the loop's count returns to zero. -/
def braceCountAfter : List Char → Nat → Nat
  | [], count => count
  | c :: rest, count =>
    braceCountAfter rest (if c = lbrace then count + 1 else if c = rbrace then count - 1 else count)

/-- JS `classContent.indexOf("{")` at line 139, as an optional index. -/
def indexOfLbrace (l : List Char) : Option Nat := l.findIdx? (fun c => c = lbrace)

/-- Class-body extraction of `resolveTestsInFile` (lines 138-151): take the
content from the class match index, find the first opening brace, run the
brace-counting loop, and truncate; with no opening brace the substring is
left untruncated. -/
def classBodyAt (content : List Char) (idx : Nat) : List Char :=
  let classContent := content.drop idx
  match indexOfLbrace classContent with
  | none => classContent
  | some ob => classContent.take (ob + 1 + scanBody (classContent.drop (ob + 1)) 1)

/-- Suffix of the class content following its first opening brace (empty
when there is none); the region the brace-counting loop walks over. -/
def afterOpenBrace (classContent : List Char) : List Char :=
  match indexOfLbrace classContent with
  | none => []
  | some ob => classContent.drop (ob + 1)

/-- Regular-expression syntax covering the two patterns of
`resolveTestsInFile` (lines 123-124): empty, literal, character class,
concatenation, alternation, star (greedy or lazy), and a capturing group. -/
inductive RE where
  | eps : RE
  | lit : Char → RE
  | cls : (Char → Bool) → RE
  | cat : RE → RE → RE
  | alt : RE → RE → RE
  | star : RE → Bool → RE
  | group : RE → RE

/-- Backtracking matcher with JS preference order: returns the list of
(remaining suffix, capture) pairs for every way the pattern can match a
prefix of `s`, most preferred first.  Greedy star tries iterating before
stopping, lazy star the reverse; iteration requires consuming at least one
character, matching the JS empty-match loop guard.  `fuel` bounds the call
depth; it is always instantiated large enough for the input at hand. -/
def matchRE : Nat → RE → List Char → List (List Char × Option (List Char))
  | 0, _, _ => []
  | _ + 1, RE.eps, s => [(s, none)]
  | _ + 1, RE.lit _, [] => []
  | _ + 1, RE.lit c, x :: xs => if x = c then [(xs, none)] else []
  | _ + 1, RE.cls _, [] => []
  | _ + 1, RE.cls p, x :: xs => if p x then [(xs, none)] else []
  | f + 1, RE.cat a b, s =>
    (matchRE f a s).flatMap fun r₁ =>
      (matchRE f b r₁.1).map fun r₂ => (r₂.1, r₁.2 <|> r₂.2)
  | f + 1, RE.alt a b, s => matchRE f a s ++ matchRE f b s
  | f + 1, RE.star r lz, s =>
    let iter :=
      (matchRE f r s).flatMap fun r₁ =>
        if r₁.1.length < s.length then
          (matchRE f (RE.star r lz) r₁.1).map fun r₂ => (r₂.1, r₁.2 <|> r₂.2)
        else []
    if lz then (s, none) :: iter else iter ++ [(s, none)]
  | f + 1, RE.group r, s =>
    (matchRE f r s).map fun r₁ => (r₁.1, some (s.take (s.length - r₁.1.length)))

/-- Attempt an anchored match of `re` at index `i` of `s`; on success
returns the match end index and the capture (JS takes the most preferred
alternative, the head of the preference-ordered list). -/
def execAt (fuel : Nat) (re : RE) (s : List Char) (i : Nat) : Option (Nat × Option (List Char)) :=
  (matchRE fuel re (s.drop i)).head?.map fun r => (s.length - r.1.length, r.2)

/-- JS `RegExp.prototype.exec` search: try an anchored match at `i`,
`i + 1`, … (at most `tries` attempts); on success returns
(match start, match end, capture). -/
def execSearch (fuel : Nat) (re : RE) (s : List Char) : Nat → Nat → Option (Nat × Nat × Option (List Char))
  | _, 0 => none
  | i, tries + 1 =>
    match execAt fuel re s i with
    | some r => some (i, r.1, r.2)
    | none => execSearch fuel re s (i + 1) tries

/-- The `while ((m = regex.exec(content)) !== null)` loop: collect all
global matches, advancing `lastIndex` to each match end (bumping by one on
an empty match, as JS does); returns (match index, capture) pairs. -/
def allMatches (fuel : Nat) (re : RE) (s : List Char) : Nat → Nat → List (Nat × Option (List Char))
  | _, 0 => []
  | lastIndex, rounds + 1 =>
    match execSearch fuel re s lastIndex (s.length + 1 - lastIndex) with
    | none => []
    | some (st, en, cap) =>
      (st, cap) :: allMatches fuel re s (if en = st then en + 1 else en) rounds

/-- Characters of the JS `\w` class (ASCII word characters). -/
def wordChar (c : Char) : Bool := c.isAlphanum || c = '_'

/-- Characters of the JS `\s` class (the ASCII whitespace subset, which is
all the source contents exercise). -/
def spaceChar (c : Char) : Bool :=
  c = ' ' || c = '\t' || c = '\n' || c = '\r' || c = '\x0b' || c = '\x0c'

/-- Regex matching a literal character sequence. -/
def reSeq : List Char → RE
  | [] => RE.eps
  | c :: cs => RE.cat (RE.lit c) (reSeq cs)

/-- Greedy `+` on a regex (one copy then a greedy star). -/
def rePlus (r : RE) : RE := RE.cat r (RE.star r false)

/-- Greedy `?` on a regex (prefer taking it). -/
def reOpt (r : RE) : RE := RE.alt r RE.eps

/-- Greedy `\s*`. -/
def wsStar : RE := RE.star (RE.cls spaceChar) false

/-- Greedy `\s+`. -/
def wsPlus : RE := rePlus (RE.cls spaceChar)

/-- Greedy `\w+`. -/
def wordPlus : RE := rePlus (RE.cls wordChar)

/-- Optional supertype clause `(?:\s*:\s*\w+(?:<[^>]*>)?)?` of the class
pattern at line 123. -/
def supertypeClause : RE :=
  RE.cat wsStar (RE.cat (RE.lit ':') (RE.cat wsStar (RE.cat wordPlus
    (reOpt (RE.cat (RE.lit '<')
      (RE.cat (RE.star (RE.cls fun c => !(c = '>')) false) (RE.lit '>')))))))

/-- The class pattern of line 123:
`class\s+(\w+)(?:\s*:\s*\w+(?:<[^>]*>)?)?\s*` followed by an opening
brace. -/
def classRegex : RE :=
  RE.cat (reSeq "class".toList) (RE.cat wsPlus (RE.cat (RE.group wordPlus)
    (RE.cat (reOpt supertypeClause) (RE.cat wsStar (RE.lit lbrace)))))

/-- The method pattern of line 124:
`@Test[^]*?(?:fun|suspend fun)\s+(\w+)\s*\([^)]*\)` — an `@Test` token, a
lazy any-character gap, a function keyword, the captured name, and a
parameter list. -/
def methodRegex : RE :=
  RE.cat (reSeq "@Test".toList)
    (RE.cat (RE.star (RE.cls fun _ => true) true)
      (RE.cat (RE.alt (reSeq "fun".toList) (reSeq "suspend fun".toList))
        (RE.cat wsPlus
          (RE.cat (RE.group wordPlus)
            (RE.cat wsStar
              (RE.cat (RE.lit '(')
                (RE.cat (RE.star (RE.cls fun c => !(c = ')')) false) (RE.lit ')'))))))))

/-- Call-depth bound ample for matching either pattern against `s`: the
star rules consume a character per recursion level and the patterns nest
fewer than 64 constructors deep. -/
def reFuel (s : List Char) : Nat := s.length + 64

/-- All global matches of the class pattern over `content`, as
(match index, captured class name) pairs (lines 127-129). -/
def classMatches (content : List Char) : List (Nat × List Char) :=
  (allMatches (reFuel content) classRegex content 0 (content.length + 2)).filterMap
    fun m => m.2.map fun cap => (m.1, cap)

/-- All captured method names of the method pattern over a class body
(lines 153-155). -/
def methodMatches (body : List Char) : List (List Char) :=
  (allMatches (reFuel body) methodRegex body 0 (body.length + 2)).filterMap fun m => m.2

/-- Test-tree node as built by `createTestItem`: id, label, children (the
parent link of a VS Code item is implicit in the tree shape). -/
inductive MNode where
  | mk : List Char → List Char → List MNode → MNode

/-- Identifier of a node. -/
def MNode.id : MNode → List Char
  | MNode.mk i _ _ => i

/-- Display label of a node. -/
def MNode.label : MNode → List Char
  | MNode.mk _ l _ => l

/-- Children of a node. -/
def MNode.children : MNode → List MNode
  | MNode.mk _ _ cs => cs

/-- File-item id of `getOrCreateFileTestItem` (line 183):
`kotlin-test:` followed by the file path. -/
def fileIdOf (path : List Char) : List Char := "kotlin-test:".toList ++ path

/-- Last path segment, modelling `path.basename` at line 182 for the
forward-slash paths the extension handles. -/
def baseName (p : List Char) : List Char :=
  (p.reverse.takeWhile fun c => !(c = '/')).reverse

/-- Class/method subtree construction of `resolveTestsInFile`
(lines 127-158): for every class match whose name contains `Test`, build a
class node with id `fileId ++ "." ++ className` whose children are method
nodes with id `classId ++ "." ++ methodName`, the methods taken from the
brace-delimited class body substring. -/
def buildClassNodes (fid : List Char) (content : List Char) : List MNode :=
  (classMatches content).filterMap fun m =>
    if strContains m.2 "Test".toList then
      let cid := fid ++ '.' :: m.2
      some (MNode.mk cid m.2
        ((methodMatches (classBodyAt content m.1)).map fun mn =>
          MNode.mk (cid ++ '.' :: mn) mn []))
    else none

/-- Full subtree a (re-)scan derives for one file from its content. -/
def resolveTree (path content : List Char) : MNode :=
  MNode.mk (fileIdOf path) (baseName path) (buildClassNodes (fileIdOf path) content)

/-- Discovery-side mutable state: the controller's root item collection
(`testController.items`), the id map (`testItems`), and the file index
(`fileToTestItemsMap`). -/
structure DState where
  controllerItems : List MNode
  testItems : List (List Char × MNode)
  fileMap : List (List Char × List (List Char))

/-- JS `Map.prototype.get`. -/
def mapLookup {β : Type} (m : List (List Char × β)) (k : List Char) : Option β :=
  (m.find? fun e => e.1 == k).map fun e => e.2

/-- JS `Map.prototype.set`: update in place when the key exists, append
otherwise. -/
def mapSet {β : Type} (m : List (List Char × β)) (k : List Char) (v : β) : List (List Char × β) :=
  if m.any fun e => e.1 == k then m.map fun e => if e.1 == k then (k, v) else e
  else m ++ [(k, v)]

/-- JS `Map.prototype.delete` (ignoring the returned Boolean). -/
def mapDelete {β : Type} (m : List (List Char × β)) (k : List Char) : List (List Char × β) :=
  m.filter fun e => !(e.1 == k)

/-- VS Code `TestItemCollection.add`: replace in place on id collision,
append otherwise. -/
def addChild (l : List MNode) (n : MNode) : List MNode :=
  if l.any fun m => MNode.id m == MNode.id n then
    l.map fun m => if MNode.id m == MNode.id n then n else m
  else l ++ [n]

/-- Bulk deletion part of `removeTestsForFile` (lines 173-177): delete each
listed id from the controller collection and the id map, then drop the
file-index entry. -/
def removeBulk (s : DState) (path : List Char) (ids : List (List Char)) : DState :=
  let s' := ids.foldl (fun st i =>
    { st with
      controllerItems := st.controllerItems.filter fun t => !(MNode.id t == i),
      testItems := mapDelete st.testItems i }) s
  { s' with fileMap := mapDelete s'.fileMap path }

/-- The `removeTestsForFile` method (lines 168-178): look up the file's
items in the file index; when absent do nothing; otherwise delete them in
bulk. -/
def removeTestsForFile (s : DState) (path : List Char) : DState :=
  match mapLookup s.fileMap path with
  | none => s
  | some ids => removeBulk s path ids

/-- Subtree construction and registration part of `resolveTestsInFile`
(lines 126-158): scan the content, add each class node (and its method
nodes) under the file item `fItem₀`, and register every created item in
the id map (`createTestItem`, lines 194-200); the id-map entry for the
file reflects the children added to it. -/
def registerSubtree (s₂ : DState) (path content : List Char) (fItem₀ : MNode) : DState :=
  let fid := fileIdOf path
  let classNodes := buildClassNodes fid content
  let fItem := MNode.mk fid (MNode.label fItem₀)
    (classNodes.foldl addChild (MNode.children fItem₀))
  let s₃ := classNodes.foldl (fun st c =>
    let st' := { st with testItems := mapSet st.testItems (MNode.id c) c }
    (MNode.children c).foldl
      (fun st₂ mth => { st₂ with testItems := mapSet st₂.testItems (MNode.id mth) mth }) st') s₂
  { s₃ with testItems := mapSet s₃.testItems fid fItem }

/-- The `resolveTestsInFile` method (lines 110-166) with the file's content
passed explicitly in place of the `readFile` call: early-return unless the
path has a recognized extension; remove the file's previous items; get or
create the file item (`getOrCreateFileTestItem`, lines 180-192 — an
existing item is reused with its children, a fresh childless one is
registered in the id map and the file index); then register the scanned
subtree. -/
def resolveTestsInFile (s : DState) (path content : List Char) : DState :=
  if !(strEndsWith path ".kt".toList) && !(strEndsWith path ".kts".toList) then s
  else
    let s₁ := removeTestsForFile s path
    let fid := fileIdOf path
    match mapLookup s₁.testItems fid with
    | some it => registerSubtree s₁ path content it
    | none =>
      registerSubtree
        { s₁ with
          testItems := mapSet s₁.testItems fid (MNode.mk fid (baseName path) []),
          fileMap := mapSet s₁.fileMap path [fid] }
        path content (MNode.mk fid (baseName path) [])

/-- The `discoverAllTests` method (lines 64-78): delete every controller
root item, clear both maps, and — when workspace folders exist — rescan
each found test file (`wsFiles` stands for the classifier's output, file
path with content). -/
def discoverAllTests (_s : DState) (wsFiles : Option (List (List Char × List Char))) : DState :=
  let cleared : DState := ⟨[], [], []⟩
  match wsFiles with
  | none => cleared
  | some files => files.foldl (fun st pc => resolveTestsInFile st pc.1 pc.2) cleared

/-- One externally triggered discovery-side operation. -/
inductive DOp where
  | discover : Option (List (List Char × List Char)) → DOp
  | resolve : List Char → List Char → DOp
  | remove : List Char → DOp

/-- Apply one operation to the state. -/
def applyOp (s : DState) : DOp → DState
  | DOp.discover wsFiles => discoverAllTests s wsFiles
  | DOp.resolve path content => resolveTestsInFile s path content
  | DOp.remove path => removeTestsForFile s path

/-- Apply a sequence of operations from left to right. -/
def applyOps (s : DState) : List DOp → DState
  | [] => s
  | op :: ops => applyOps (applyOp s op) ops

/-- Initial state: every collection empty. -/
def initState : DState := ⟨[], [], []⟩

/-- Subtree the id map currently attributes to a path: its file item. -/
def subtreeForPath (s : DState) (path : List Char) : Option MNode :=
  mapLookup s.testItems (fileIdOf path)

/-- Per-item outcome signals emitted through the `TestRun`. -/
inductive RunEvent where
  | started : List Char → RunEvent
  | passed : List Char → RunEvent
  | failed : List Char → List Char → RunEvent
deriving DecidableEq

/-- Environment of one run: the first workspace folder root (none when no
workspace is open) and whether a Gradle manifest exists at the root. -/
structure RunConfig where
  wsRoot : Option (List Char)
  hasGradleFile : Bool

/-- Message produced at line 253 when the workspace check at line 231
throws (JS stringifies the thrown `Error`). -/
def noWorkspaceMsg : List Char :=
  "Test execution failed: Error: No workspace folder found!".toList

/-- Message produced at line 253 when the build-tool check at line 247
throws. -/
def onlyGradleMsg : List Char :=
  "Test execution failed: Error: Error running tests: Only Gradle workspaces are supported for now!".toList

/-- Terminal command sent at line 244. -/
def gradleCommand (testClass : List Char) (testMethod : Option (List Char)) : List Char :=
  "./gradlew test --tests ".toList ++ testClass ++
    (match testMethod with
     | some m => '.' :: m
     | none => [])

/-- Leaf dispatch (`runHandler` lines 228-254): mark started; with no
workspace folder the check at line 231 throws and the item is failed with
the no-workspace message; otherwise split the selector from the id and
either send the Gradle command and mark passed, or fail with the
Gradle-only message. -/
def dispatchLeaf (cfg : RunConfig) (t : MNode) : List RunEvent × List (List Char) :=
  match cfg.wsRoot with
  | none => ([RunEvent.started (MNode.id t), RunEvent.failed (MNode.id t) noWorkspaceMsg], [])
  | some _ =>
    let sel := splitSelector (MNode.id t)
    if cfg.hasGradleFile then
      ([RunEvent.started (MNode.id t), RunEvent.passed (MNode.id t)], [gradleCommand sel.1 sel.2])
    else
      ([RunEvent.started (MNode.id t), RunEvent.failed (MNode.id t) onlyGradleMsg], [])

/-- The `isAncestorOf` method (lines 260-269): walk the descendant's
parent chain upward comparing ids; the descendant itself is not compared.
Here `ancestors` is the descendant's chain of strict-ancestor ids. -/
def isAncestorOf (ancestorId : List Char) (ancestors : List (List Char)) : Bool :=
  ancestors.any fun i => i == ancestorId

/-- Queue processing of `runHandler` (lines 216-255) with an uncancelled
token: pop from the front; skip the item when some excluded id is a strict
ancestor; expand items with children to the back of the queue, pairing each
child with its parent chain; dispatch leaves.  `fuel` bounds the number of
iterations and is instantiated above the queue weight. -/
def processQueue (cfg : RunConfig) (exclude : List (List Char)) :
    Nat → List (MNode × List (List Char)) → List RunEvent × List (List Char)
  | 0, _ => ([], [])
  | _ + 1, [] => ([], [])
  | fu + 1, (t, anc) :: rest =>
    if exclude.any fun e => isAncestorOf e anc then
      processQueue cfg exclude fu rest
    else if 0 < (MNode.children t).length then
      processQueue cfg exclude fu (rest ++ (MNode.children t).map fun c => (c, MNode.id t :: anc))
    else
      let d := dispatchLeaf cfg t
      let r := processQueue cfg exclude fu rest
      (d.1 ++ r.1, d.2 ++ r.2)

/-- Ids of the leaves `processQueue` dispatches, by the same recursion. -/
def dispatchedLeafIds (exclude : List (List Char)) :
    Nat → List (MNode × List (List Char)) → List (List Char)
  | 0, _ => []
  | _ + 1, [] => []
  | fu + 1, (t, anc) :: rest =>
    if exclude.any fun e => isAncestorOf e anc then
      dispatchedLeafIds exclude fu rest
    else if 0 < (MNode.children t).length then
      dispatchedLeafIds exclude fu (rest ++ (MNode.children t).map fun c => (c, MNode.id t :: anc))
    else
      MNode.id t :: dispatchedLeafIds exclude fu rest

mutual

/-- Size of a node's subtree. -/
def MNode.size : MNode → Nat
  | MNode.mk _ _ cs => 1 + sizeList cs

/-- Total size of a list of subtrees. -/
def sizeList : List MNode → Nat
  | [] => 0
  | c :: cs => MNode.size c + sizeList cs

end

/-- Total subtree weight of a queue; one more than this bounds the number
of queue iterations. -/
def queueWeight (q : List (MNode × List (List Char))) : Nat :=
  (q.map fun e => MNode.size e.1).sum

/-- The full `runHandler` on a state: seed the queue from the request's
include set (with each seed's strict-ancestor ids), or from the
controller's root collection when no include set is given (line 213), and
process it. -/
def runHandlerModel (cfg : RunConfig) (s : DState)
    (includeSel : Option (List (MNode × List (List Char))))
    (exclude : List (List Char)) : List RunEvent × List (List Char) :=
  let queue := match includeSel with
    | some q => q
    | none => s.controllerItems.map fun t => (t, [])
  processQueue cfg exclude (queueWeight queue + 1) queue

/-- Example file path used by the concrete theorems. -/
def exPath : List Char := "/ws/T.kt".toList

/-- Example content: one test class with two annotated test methods. -/
def exContent : List Char :=
  "class CTest \x7b @Test fun methodA() \x7b\x7d @Test fun methodB() \x7b\x7d \x7d".toList

/-- File id the scan derives for `exPath`. -/
def exFileId : List Char := "kotlin-test:/ws/T.kt".toList

/-- Leaf id of the first method of `exContent`. -/
def exLeafIdA : List Char := "kotlin-test:/ws/T.kt.CTest.methodA".toList

/-- Leaf id of the second method of `exContent`. -/
def exLeafIdB : List Char := "kotlin-test:/ws/T.kt.CTest.methodB".toList

/-- Method node for `methodA`. -/
def exMethodA : MNode := MNode.mk exLeafIdA "methodA".toList []

/-- Method node for `methodB`. -/
def exMethodB : MNode := MNode.mk exLeafIdB "methodB".toList []

/-- Class node the scan derives for `exContent`. -/
def exClassNode : MNode :=
  MNode.mk "kotlin-test:/ws/T.kt.CTest".toList "CTest".toList [exMethodA, exMethodB]
/-- Queue seeding the C3 scenario: the run includes the class node, whose
only strict ancestor is the file item. -/
def exQueue : List (MNode × List (List Char)) := [(exClassNode, [exFileId])]

/-- Leaf item X for the no-workspace scenario. -/
def exLeafX : MNode := MNode.mk "X".toList "X".toList []

/-- Leaf item Y for the no-workspace scenario. -/
def exLeafY : MNode := MNode.mk "Y".toList "Y".toList []

/-- Queue with two leaf items for the no-workspace scenario. -/
def exNoWsQueue : List (MNode × List (List Char)) := [(exLeafX, []), (exLeafY, [])]

/-- Content with a matching outer class whose body nests a matching inner
class owning the only annotated method. -/
def exNestedContent : List Char :=
  "class OuterTest \x7b class InnerTest \x7b @Test fun innerM() \x7b\x7d \x7d \x7d".toList

/-- File id used by the nested-class theorems. -/
def exNestedFileId : List Char := fileIdOf "/ws/N.kt".toList

/-- Content whose class body is opened but never closed. -/
def exUntermContent : List Char := "class FooTest \x7b @Test fun a() \x7b".toList

/-- Helper: when the running brace count stays positive on every prefix,
the brace-counting loop consumes the whole input. -/
theorem scanBody_eq_length_of_pos (l : List Char) : ∀ c : Nat,
    (∀ k, k ≤ l.length → braceCountAfter (l.take k) c ≠ 0) → scanBody l c = l.length := by
  induction l with
  | nil =>
    intro c _
    match c with
    | 0 => rfl
    | _ + 1 => rfl
  | cons x rest ih =>
    intro c h
    have h0 : c ≠ 0 := by
      have := h 0 (Nat.zero_le _)
      simpa [braceCountAfter] using this
    match c, h0 with
    | k + 1, _ =>
      have hnext : ∀ j, j ≤ rest.length →
          braceCountAfter (rest.take j)
            (if x = lbrace then k + 2 else if x = rbrace then k else k + 1) ≠ 0 := by
        intro j hj
        have hk := h (j + 1) (Nat.succ_le_succ hj)
        simp only [List.take_succ_cons, braceCountAfter] at hk
        simpa [Nat.add_sub_cancel] using hk
      simp only [scanBody, List.length_cons]
      rw [ih _ hnext]
      omega

/-- Helper: a fold whose step leaves the controller collection alone
leaves it alone. -/
theorem controllerItems_foldl_preserved {α : Type} (g : DState → α → DState)
    (hg : ∀ st a, (g st a).controllerItems = st.controllerItems) :
    ∀ (l : List α) (s : DState), (l.foldl g s).controllerItems = s.controllerItems := by
  intro l
  induction l with
  | nil => intro s; rfl
  | cons a l ih => intro s; rw [List.foldl_cons, ih, hg]

/-- Helper: registering a scanned subtree never touches the controller's
root collection (no call to `testController.items.add` exists). -/
theorem controllerItems_registerSubtree (s : DState) (path content : List Char) (f₀ : MNode) :
    (registerSubtree s path content f₀).controllerItems = s.controllerItems := by
  show (List.foldl
      (fun st c =>
        List.foldl
          (fun st₂ mth => { st₂ with testItems := mapSet st₂.testItems (MNode.id mth) mth })
          { st with testItems := mapSet st.testItems (MNode.id c) c } (MNode.children c))
      s (buildClassNodes (fileIdOf path) content)).controllerItems = s.controllerItems
  exact controllerItems_foldl_preserved
    (fun st c =>
      List.foldl
        (fun st₂ mth => { st₂ with testItems := mapSet st₂.testItems (MNode.id mth) mth })
        { st with testItems := mapSet st.testItems (MNode.id c) c } (MNode.children c))
    (fun st c => controllerItems_foldl_preserved
      (fun st₂ mth => { st₂ with testItems := mapSet st₂.testItems (MNode.id mth) mth })
      (fun st₂ mth => rfl) (MNode.children c)
      { st with testItems := mapSet st.testItems (MNode.id c) c })
    (buildClassNodes (fileIdOf path) content) s

/-- Helper: removal only deletes from the controller collection, so an
empty collection stays empty. -/
theorem controllerItems_remove_empty (s : DState) (path : List Char)
    (h : s.controllerItems = []) : (removeTestsForFile s path).controllerItems = [] := by
  unfold removeTestsForFile
  cases hm : mapLookup s.fileMap path with
  | none => exact h
  | some ids =>
    have haux : ∀ (l : List (List Char)) (st : DState), st.controllerItems = [] →
        ((l.foldl (fun st i =>
          { st with
            controllerItems := st.controllerItems.filter fun t => !(MNode.id t == i),
            testItems := mapDelete st.testItems i }) st).controllerItems = []) := by
      intro l
      induction l with
      | nil => intro st hst; exact hst
      | cons i l ih => intro st hst; rw [List.foldl_cons]; exact ih _ (by simp [hst])
    exact haux ids s h

/-- Helper: a single-file rescan keeps the controller collection empty. -/
theorem controllerItems_resolve_empty (s : DState) (path content : List Char)
    (h : s.controllerItems = []) : (resolveTestsInFile s path content).controllerItems = [] := by
  unfold resolveTestsInFile
  by_cases hext : (!(strEndsWith path ".kt".toList) && !(strEndsWith path ".kts".toList)) = true
  · rw [if_pos hext]; exact h
  · rw [if_neg hext]
    cases hm : mapLookup (removeTestsForFile s path).testItems (fileIdOf path) with
    | some it =>
      simp only [hm]
      rw [controllerItems_registerSubtree]
      exact controllerItems_remove_empty s path h
    | none =>
      simp only [hm]
      rw [controllerItems_registerSubtree]
      exact controllerItems_remove_empty s path h

/-- Helper: full rediscovery leaves the controller collection empty. -/
theorem controllerItems_discover_empty (s : DState)
    (w : Option (List (List Char × List Char))) :
    (discoverAllTests s w).controllerItems = [] := by
  unfold discoverAllTests
  cases w with
  | none => rfl
  | some files =>
    have haux : ∀ (fs : List (List Char × List Char)) (st : DState), st.controllerItems = [] →
        ((fs.foldl (fun st pc => resolveTestsInFile st pc.1 pc.2) st).controllerItems = []) := by
      intro fs
      induction fs with
      | nil => intro st hst; exact hst
      | cons pc fs ih =>
        intro st hst
        rw [List.foldl_cons]
        exact ih _ (controllerItems_resolve_empty _ _ _ hst)
    exact haux files _ rfl

/-- Helper: no reachable discovery state ever puts an item in the
controller's root collection. -/
theorem controllerItems_applyOps_empty :
    ∀ (ops : List DOp) (s : DState), s.controllerItems = [] →
      (applyOps s ops).controllerItems = [] := by
  intro ops
  induction ops with
  | nil => intro s h; exact h
  | cons op ops ih =>
    intro s h
    cases op with
    | discover w => exact ih _ (controllerItems_discover_empty s w)
    | resolve path content => exact ih _ (controllerItems_resolve_empty s path content h)
    | remove path => exact ih _ (controllerItems_remove_empty s path h)

/-- Helper: the in-place-updated map resolves the key to the new value
when the key was present. -/
theorem find_map_setInPlace {β : Type} (k : List Char) (v : β) :
    ∀ m : List (List Char × β),
      ((m.map fun e => if e.1 == k then (k, v) else e).find? fun e => e.1 == k)
        = if m.any fun e => e.1 == k then some (k, v) else none := by
  intro m
  induction m with
  | nil => rfl
  | cons e m ih =>
    by_cases he : (e.1 == k) = true
    · simp only [List.map_cons, List.any_cons]
      rw [if_pos he,
        @List.find?_cons_of_pos _ (fun e => e.1 == k) (k, v) _ (by simp)]
      simp only [he, Bool.true_or, if_pos]
    · simp only [List.map_cons, List.any_cons]
      rw [if_neg he,
        @List.find?_cons_of_neg _ (fun e => e.1 == k) e _ he, ih]
      simp only [eq_false_of_ne_true he, Bool.false_or]

/-- Helper: `Map.set` then `Map.get` on the same key yields the value. -/
theorem mapLookup_mapSet_self {β : Type} (m : List (List Char × β)) (k : List Char) (v : β) :
    mapLookup (mapSet m k v) k = some v := by
  unfold mapLookup mapSet
  by_cases hany : (m.any fun e => e.1 == k) = true
  · rw [if_pos hany, find_map_setInPlace, if_pos hany]
    rfl
  · rw [if_neg hany]
    have hnone : (m.find? fun e => e.1 == k) = none := by
      rw [List.find?_eq_none]
      intro x hx
      exact List.any_eq_false.mp (eq_false_of_ne_true hany) x hx
    rw [List.find?_append, hnone, Option.none_or,
      @List.find?_cons_of_pos _ (fun e => e.1 == k) (k, v) _ (by simp)]
    rfl

/-- Helper: after filtering a key out, searching for it finds nothing. -/
theorem find_filter_ne {β : Type} (k : List Char) :
    ∀ m : List (List Char × β),
      ((m.filter fun e => !(e.1 == k)).find? fun e => e.1 == k) = none := by
  intro m
  induction m with
  | nil => rfl
  | cons e m ih =>
    by_cases he : (e.1 == k) = true
    · rw [List.filter_cons, if_neg (by simp [he])]
      exact ih
    · rw [List.filter_cons, if_pos (by simp [he]),
        @List.find?_cons_of_neg _ (fun e => e.1 == k) e _ he]
      exact ih

/-- Helper: `Map.delete` then `Map.get` on the same key yields nothing. -/
theorem mapLookup_mapDelete_self {β : Type} (m : List (List Char × β)) (k : List Char) :
    mapLookup (mapDelete m k) k = none := by
  unfold mapLookup mapDelete
  rw [find_filter_ne]
  rfl

/-- Helper: a fold whose step leaves the file index alone leaves it
alone. -/
theorem fileMap_foldl_preserved {α : Type} (g : DState → α → DState)
    (hg : ∀ st a, (g st a).fileMap = st.fileMap) :
    ∀ (l : List α) (s : DState), (l.foldl g s).fileMap = s.fileMap := by
  intro l
  induction l with
  | nil => intro s; rfl
  | cons a l ih => intro s; rw [List.foldl_cons, ih, hg]

/-- Helper: registering a scanned subtree never touches the file index. -/
theorem fileMap_registerSubtree (s : DState) (path content : List Char) (f₀ : MNode) :
    (registerSubtree s path content f₀).fileMap = s.fileMap := by
  show (List.foldl
      (fun st c =>
        List.foldl
          (fun st₂ mth => { st₂ with testItems := mapSet st₂.testItems (MNode.id mth) mth })
          { st with testItems := mapSet st.testItems (MNode.id c) c } (MNode.children c))
      s (buildClassNodes (fileIdOf path) content)).fileMap = s.fileMap
  exact fileMap_foldl_preserved
    (fun st c =>
      List.foldl
        (fun st₂ mth => { st₂ with testItems := mapSet st₂.testItems (MNode.id mth) mth })
        { st with testItems := mapSet st.testItems (MNode.id c) c } (MNode.children c))
    (fun st c => fileMap_foldl_preserved
      (fun st₂ mth => { st₂ with testItems := mapSet st₂.testItems (MNode.id mth) mth })
      (fun st₂ mth => rfl) (MNode.children c)
      { st with testItems := mapSet st.testItems (MNode.id c) c })
    (buildClassNodes (fileIdOf path) content) s

/-- Helper: after registering a subtree, the id map resolves the file id
to the file item carrying the newly attached children. -/
theorem subtree_registerSubtree (s : DState) (path content : List Char) (f₀ : MNode) :
    subtreeForPath (registerSubtree s path content f₀) path
      = some (MNode.mk (fileIdOf path) (MNode.label f₀)
          ((buildClassNodes (fileIdOf path) content).foldl addChild (MNode.children f₀))) := by
  unfold subtreeForPath registerSubtree
  exact mapLookup_mapSet_self _ _ _

/-- Claim C1: the (testClass, testMethod?) selector handed to the build
tool is recovered from the leaf id by splitting on the separator, yielding
the declared class and method names.  The code splits on `#` (line 238)
while ids are joined with `.` (lines 133, 155), so at this discovered leaf
the whole id becomes `testClass` and `testMethod` is absent — the Gradle
command receives the raw id, not `CTest.methodA`. -/
theorem selector_split_yields_whole_id :
    (resolveTree exPath exContent).children = [exClassNode]
    ∧ splitSelector exLeafIdA = (exLeafIdA, none)
    ∧ gradleCommand (splitSelector exLeafIdA).1 (splitSelector exLeafIdA).2
        = "./gradlew test --tests kotlin-test:/ws/T.kt.CTest.methodA".toList
    ∧ ¬ splitSelector exLeafIdA = ("CTest".toList, some "methodA".toList) :=
  ⟨rfl, rfl, rfl, by decide⟩

/-- Claim C2: no reachable sequence of discovery operations ever populates
the controller's root item collection (file items are registered in the id
map and the file index but never added to `testController.items`), so a
run request without an include set seeds an empty queue, emits no outcome,
and sends no build-tool command. -/
theorem root_collection_stays_empty (ops : List DOp) (cfg : RunConfig)
    (exclude : List (List Char)) :
    (applyOps initState ops).controllerItems = []
    ∧ runHandlerModel cfg (applyOps initState ops) none exclude = ([], []) := by
  have h := controllerItems_applyOps_empty ops initState rfl
  refine ⟨h, ?_⟩
  unfold runHandlerModel
  rw [h]
  simp [processQueue, queueWeight]

/-- Claim C3: a node should be dropped iff it equals or descends from an
excluded node, so including `Class` and excluding `Method A` should
dispatch exactly `Method B`.  `isAncestorOf` (lines 260-269) compares only
strict ancestors, never the node itself, so the excluded leaf `methodA` is
still dispatched: the dispatched set is `[methodA, methodB]`, not
`[methodB]`. -/
theorem excluded_method_still_dispatched :
    dispatchedLeafIds [exLeafIdA] (queueWeight exQueue + 1) exQueue = [exLeafIdA, exLeafIdB]
    ∧ ¬ dispatchedLeafIds [exLeafIdA] (queueWeight exQueue + 1) exQueue = [exLeafIdB]
    ∧ (processQueue ⟨some "/ws".toList, true⟩ [exLeafIdA] (queueWeight exQueue + 1) exQueue).1
        = [RunEvent.started exLeafIdA, RunEvent.passed exLeafIdA,
           RunEvent.started exLeafIdB, RunEvent.passed exLeafIdB] :=
  ⟨rfl, by decide, rfl⟩

/-- Claim C4 counterexample: with no workspace root open and a selection
expanding to two leaves, the run produces two failure outcomes, and both
items are marked started first (lines 229-233, 252-253) — not one
immediate failure with nothing started, as claimed. -/
theorem no_workspace_counterexample :
    (processQueue ⟨none, true⟩ [] (queueWeight exNoWsQueue + 1) exNoWsQueue).1
      = [RunEvent.started "X".toList, RunEvent.failed "X".toList noWorkspaceMsg,
         RunEvent.started "Y".toList, RunEvent.failed "Y".toList noWorkspaceMsg]
    ∧ (processQueue ⟨none, true⟩ [] (queueWeight exNoWsQueue + 1) exNoWsQueue).2 = [] :=
  ⟨rfl, rfl⟩

/-- Claim C4 amended: when no workspace root is open, every dispatched
leaf is marked started and immediately receives a failure outcome carrying
the no-workspace message (one failure per dispatched leaf, not a single
failure for the whole run), and zero build-tool invocations occur. -/
theorem no_workspace_fails_each_dispatched_leaf (hg : Bool) (exclude : List (List Char)) :
    ∀ (fu : Nat) (q : List (MNode × List (List Char))),
    processQueue ⟨none, hg⟩ exclude fu q
      = ((dispatchedLeafIds exclude fu q).flatMap
          (fun i => [RunEvent.started i, RunEvent.failed i noWorkspaceMsg]), []) := by
  intro fu
  induction fu with
  | zero => intro q; simp [processQueue, dispatchedLeafIds]
  | succ fu ih =>
    intro q
    match q with
    | [] => simp [processQueue, dispatchedLeafIds]
    | (t, anc) :: rest =>
      by_cases h1 : (exclude.any fun e => isAncestorOf e anc) = true
      · simp [processQueue, dispatchedLeafIds, h1, ih]
      · by_cases h2 : 0 < (MNode.children t).length
        · simp [processQueue, dispatchedLeafIds, h1, h2, ih]
        · simp [processQueue, dispatchedLeafIds, h1, h2, ih, dispatchLeaf]

/-- Claim C5: the classifier should require a recognized extension AND a
test-indicating name substring AND a content marker.  By JS operator
precedence at line 92, the name-substring requirement applies only to
`.kts` files: `Foo.kt` with marker content is accepted although its name
contains no `Test`. -/
theorem kt_file_accepted_without_test_in_name :
    isTestFileCandidate "Foo.kt".toList "@Test".toList = true
    ∧ strContains "Foo.kt".toList "Test".toList = false := by decide

/-- Claim C6: the walk should skip build-output directories and descend
into every other one.  The guard at line 88 requires the name to START
with a dot, so an ordinary source directory such as `src` is never
descended into; only dot-directories are. -/
theorem walk_descends_only_into_dot_dirs :
    descendsInto "src".toList = false
    ∧ descendsInto ".git".toList = true
    ∧ descendsInto "build".toList = false
    ∧ descendsInto ".hidden".toList = true := by decide

/-- Claim C7 counterexample: the inner class's method DOES appear in the
outer class's method list — the method regex runs over the whole
brace-delimited outer body (lines 138-157), which contains the nested
class's body. -/
theorem inner_method_in_outer_class_list :
    "innerM".toList ∈
      ((buildClassNodes exNestedFileId exNestedContent).headD
        (MNode.mk [] [] [])).children.map MNode.label := by decide

/-- Claim C7 amended: the method list attributed to a class holds every
qualifying method match of the class's brace-delimited body substring,
nested inner-class bodies included; in the nested example the inner method
is attributed to both the outer and the inner class. -/
theorem nested_method_attributed_to_both_classes :
    (buildClassNodes exNestedFileId exNestedContent).map
        (fun c => (MNode.label c, (MNode.children c).map MNode.label))
      = [("OuterTest".toList, ["innerM".toList]),
         ("InnerTest".toList, ["innerM".toList])] := rfl

/-- Claim C8: rescanning is idempotent — when the preceding removal step
actually clears the path's file item from the id map (always true in
reachable states, where the file index lists exactly the file item), two
successive rescans with the same content attribute the very same subtree
to the path, and (for a recognized extension) that subtree is the one
freshly built from the content, replacing, not appending to, any previous
children. -/
theorem rescan_idempotent_subtree (s : DState) (path content : List Char)
    (h : mapLookup (removeTestsForFile s path).testItems (fileIdOf path) = none) :
    subtreeForPath (resolveTestsInFile s path content) path
      = subtreeForPath (resolveTestsInFile (resolveTestsInFile s path content) path content) path
    ∧ ((strEndsWith path ".kt".toList || strEndsWith path ".kts".toList) = true →
        subtreeForPath (resolveTestsInFile s path content) path
          = some (MNode.mk (fileIdOf path) (baseName path)
              ((buildClassNodes (fileIdOf path) content).foldl addChild []))) := by
  by_cases hext : (!(strEndsWith path ".kt".toList) && !(strEndsWith path ".kts".toList)) = true
  · have hid : ∀ X : DState, resolveTestsInFile X path content = X := by
      intro X
      unfold resolveTestsInFile
      rw [if_pos hext]
    refine ⟨by rw [hid, hid], ?_⟩
    intro hor
    exfalso
    rcases Bool.or_eq_true_iff.mp hor with h1 | h1 <;> simp at h1 <;> simp [h1] at hext
  · have hres : ∀ X : DState,
        mapLookup (removeTestsForFile X path).testItems (fileIdOf path) = none →
        resolveTestsInFile X path content
          = registerSubtree
              { removeTestsForFile X path with
                testItems := mapSet (removeTestsForFile X path).testItems (fileIdOf path)
                  (MNode.mk (fileIdOf path) (baseName path) []),
                fileMap := mapSet (removeTestsForFile X path).fileMap path [fileIdOf path] }
              path content (MNode.mk (fileIdOf path) (baseName path) []) := by
      intro X hX
      unfold resolveTestsInFile
      rw [if_neg hext]
      dsimp only
      rw [hX]
    have hF₁ := hres s h
    have hsub₁ : subtreeForPath (resolveTestsInFile s path content) path
        = some (MNode.mk (fileIdOf path) (baseName path)
            ((buildClassNodes (fileIdOf path) content).foldl addChild [])) := by
      rw [hF₁]
      exact subtree_registerSubtree _ _ _ _
    have hfm : (resolveTestsInFile s path content).fileMap
        = mapSet (removeTestsForFile s path).fileMap path [fileIdOf path] := by
      rw [hF₁, fileMap_registerSubtree]
    have hlook : mapLookup (resolveTestsInFile s path content).fileMap path
        = some [fileIdOf path] := by
      rw [hfm]
      exact mapLookup_mapSet_self _ _ _
    have hrem : removeTestsForFile (resolveTestsInFile s path content) path
        = removeBulk (resolveTestsInFile s path content) path [fileIdOf path] := by
      unfold removeTestsForFile
      rw [hlook]
    have h₂ : mapLookup (removeTestsForFile (resolveTestsInFile s path content) path).testItems
        (fileIdOf path) = none := by
      rw [hrem]
      show mapLookup (mapDelete (resolveTestsInFile s path content).testItems (fileIdOf path))
        (fileIdOf path) = none
      exact mapLookup_mapDelete_self _ _
    have hF₂ := hres (resolveTestsInFile s path content) h₂
    have hsub₂ : subtreeForPath
        (resolveTestsInFile (resolveTestsInFile s path content) path content) path
        = some (MNode.mk (fileIdOf path) (baseName path)
            ((buildClassNodes (fileIdOf path) content).foldl addChild [])) := by
      rw [hF₂]
      exact subtree_registerSubtree _ _ _ _
    exact ⟨hsub₁.trans hsub₂.symm, fun _ => hsub₁⟩

/-- Witness for claim C8: two rescans of the example file from the empty
state attribute the same subtree to the path, and it is the freshly built
one. -/
theorem rescan_idempotent_subtree_witness :
    subtreeForPath (resolveTestsInFile initState exPath exContent) exPath
      = subtreeForPath
          (resolveTestsInFile (resolveTestsInFile initState exPath exContent) exPath exContent)
          exPath
    ∧ ((strEndsWith exPath ".kt".toList || strEndsWith exPath ".kts".toList) = true →
        subtreeForPath (resolveTestsInFile initState exPath exContent) exPath
          = some (MNode.mk (fileIdOf exPath) (baseName exPath)
              ((buildClassNodes (fileIdOf exPath) exContent).foldl addChild []))) :=
  rescan_idempotent_subtree initState exPath exContent rfl

/-- Claim C9: when the brace count never returns to zero before the end of
the content, the brace-counting loop stops at end-of-content and the whole
remaining substring is used as the class body — the scanner terminates and
throws nothing. -/
theorem unterminated_class_body_truncates (content : List Char) (idx : Nat)
    (h : ∀ k, k ≤ (afterOpenBrace (content.drop idx)).length →
        braceCountAfter ((afterOpenBrace (content.drop idx)).take k) 1 ≠ 0) :
    classBodyAt content idx = content.drop idx := by
  have hs := scanBody_eq_length_of_pos (afterOpenBrace (content.drop idx)) 1 h
  unfold afterOpenBrace at hs
  unfold classBodyAt
  cases hfind : indexOfLbrace (content.drop idx) with
  | none => simp [hfind]
  | some ob =>
    rw [hfind] at hs
    simp only [hfind]
    rw [hs]
    refine List.take_of_length_le ?_
    simp [List.length_drop]
    omega

/-- Witness for claim C9: the example class whose body never closes is
scanned to the end of content, which becomes its body. -/
theorem unterminated_class_body_truncates_witness :
    classBodyAt exUntermContent 0 = exUntermContent.drop 0 :=
  unterminated_class_body_truncates exUntermContent 0 (by decide)

/-- Claim C10: for every discovered tree, a class node's id extends the
file node's id by a nonempty suffix and a method node's id extends its
class node's id by a nonempty suffix (ids are parent id, separator, then
declaration name), so parent ids are proper prefixes of child ids. -/
theorem method_class_file_id_ancestry (path content : List Char) (c m : MNode)
    (hc : c ∈ (resolveTree path content).children)
    (hm : m ∈ MNode.children c) :
    (∃ t, t ≠ [] ∧ MNode.id c = MNode.id (resolveTree path content) ++ t)
    ∧ (∃ u, u ≠ [] ∧ MNode.id m = MNode.id c ++ u) := by
  have hc' : c ∈ buildClassNodes (fileIdOf path) content := hc
  rw [buildClassNodes, List.mem_filterMap] at hc'
  obtain ⟨a, _, hfa⟩ := hc'
  by_cases hTest : strContains a.2 "Test".toList = true
  · rw [if_pos hTest] at hfa
    have hceq := Option.some.inj hfa
    subst hceq
    constructor
    · exact ⟨'.' :: a.2, by simp, rfl⟩
    · rw [MNode.children] at hm
      rw [List.mem_map] at hm
      obtain ⟨mn, _, hmeq⟩ := hm
      subst hmeq
      exact ⟨'.' :: mn, by simp, rfl⟩
  · rw [if_neg hTest] at hfa
    exact absurd hfa (by simp)

/-- Witness for claim C10: in the example tree, the class id properly
extends the file id and the first method id properly extends the class
id. -/
theorem method_class_file_id_ancestry_witness :
    (∃ t, t ≠ [] ∧ MNode.id exClassNode = MNode.id (resolveTree exPath exContent) ++ t)
    ∧ (∃ u, u ≠ [] ∧ MNode.id exMethodA = MNode.id exClassNode ++ u) :=
  method_class_file_id_ancestry exPath exContent exClassNode exMethodA
    (by
      rw [show (resolveTree exPath exContent).children = [exClassNode] from rfl]
      exact List.mem_singleton_self _)
    (by
      rw [show MNode.children exClassNode = [exMethodA, exMethodB] from rfl]
      exact List.mem_cons_self _ _)
